import Mathlib

/-!
# Verification of the kubedash mock-registry core

Shallow embedding of the in-memory resource registries of the kubedash
repository, together with proofs checking the natural-language
specification against the code.

Modelling conventions used throughout:

* Go `time.Time` instants and `time.Duration` values are modelled as `Int`
  nanoseconds (Go durations are int64 nanoseconds).  `time.Time.UTC()`
  changes only the display location, not the instant, so it is the identity
  here.  `time.RFC3339` rendering of an instant is injective and, for
  instants rendered in one fixed offset (all instants in this program are
  derived from a single `now`), strictly monotone; wherever the code
  formats an instant into a string we keep the instant itself, and
  wherever the code compares two such formatted strings we compare the
  instants.
* Go maps (`map[string]record`) are modelled as association lists
  `List (String × α)`; assignment `m[k] = v` is `mapInsert` (replace the
  existing key or append), `delete(m, k)` is `mapErase`, and indexing is
  `mapLookup`.  Go's map iteration order is unspecified; the model
  iterates in list order, which realises one admissible order.
* Fallible operations return `Except`; mutating methods return the new
  store state explicitly.
* `strings.ToLower` / `strings.ToUpper` / `strings.TrimSpace` are modelled
  on their ASCII behaviour, which covers every string these stores touch.
-/

/-! ## Time units (nanoseconds, as in Go `time.Duration`) -/

def nsPerSecond : Nat := 1000000000

/-- `time.Minute` = 60 * nsPerSecond nanoseconds. -/
def nsPerMinute : Nat := 60000000000

/-- `time.Hour` = 60 * nsPerMinute nanoseconds. -/
def nsPerHour : Nat := 3600000000000

/-- `24 * time.Hour` nanoseconds. -/
def nsPerDay : Nat := 86400000000000

/-- `n` minutes as an `Int` nanosecond duration (for seed data offsets). -/
def minutesNs (n : Int) : Int := n * (nsPerMinute : Int)

/-- `n` hours as an `Int` nanosecond duration (for seed data offsets). -/
def hoursNs (n : Int) : Int := n * (nsPerHour : Int)

/-- `n` seconds as an `Int` nanosecond duration (for seed data offsets). -/
def secondsNs (n : Int) : Int := n * (nsPerSecond : Int)

/-! ## ASCII models of the Go `strings` helpers -/

/-- The ASCII whitespace characters recognised by `unicode.IsSpace`
(space, tab, newline, vertical tab, form feed, carriage return). -/
def goIsSpace (c : Char) : Bool :=
  c == ' ' || c == '\t' || c == '\n' || c == Char.ofNat 11 || c == Char.ofNat 12 || c == '\r'

/-- `strings.TrimSpace`: drop whitespace from both ends. -/
def goTrimSpace (s : String) : String :=
  ⟨((s.data.dropWhile goIsSpace).reverse.dropWhile goIsSpace).reverse⟩

/-- ASCII lowering of one character (model of `unicode.ToLower` on ASCII). -/
def goLowerChar (c : Char) : Char :=
  if 'A' ≤ c ∧ c ≤ 'Z' then Char.ofNat (c.toNat + 32) else c

/-- ASCII raising of one character (model of `unicode.ToUpper` on ASCII). -/
def goUpperChar (c : Char) : Char :=
  if 'a' ≤ c ∧ c ≤ 'z' then Char.ofNat (c.toNat - 32) else c

/-- `strings.ToLower` on ASCII strings. -/
def goToLower (s : String) : String := ⟨s.data.map goLowerChar⟩

/-- `strings.ToUpper` on ASCII strings. -/
def goToUpper (s : String) : String := ⟨s.data.map goUpperChar⟩

/-! ## Association-list model of Go maps -/

/-- Go map indexing `m[k]` (second result of the comma-ok form). -/
def mapLookup {α : Type} (k : String) : List (String × α) → Option α
  | [] => none
  | (k', v) :: rest => if k' = k then some v else mapLookup k rest

/-- Go map assignment `m[k] = v`: replace the binding if the key is
present, otherwise add it. -/
def mapInsert {α : Type} (k : String) (v : α) : List (String × α) → List (String × α)
  | [] => [(k, v)]
  | (k', v') :: rest => if k' = k then (k, v) :: rest else (k', v') :: mapInsert k v rest

/-- Go `delete(m, k)`. -/
def mapErase {α : Type} (k : String) (m : List (String × α)) : List (String × α) :=
  m.filter (fun p => ¬ p.1 = k)

/-! ## The shared age formatter

Each store package (`deploy`, `namespace`, `service`, …) carries a
byte-identical copy of `formatAge`; it is modelled once.  The input is a
Go `time.Duration`, i.e. `Int` nanoseconds; the divisions below are the
Go integer divisions of the source (all operands are non-negative after
the clamp, so `Nat` division coincides with Go's truncating division). -/

def formatAge (d : Int) : String :=
  -- `if d < 0 { d = 0 }`: `Int.toNat` clamps negatives to zero.
  let c := d.toNat
  let days := c / nsPerDay
  let c1 := c - days * nsPerDay
  let hours := c1 / nsPerHour
  let c2 := c1 - hours * nsPerHour
  let minutes := c2 / nsPerMinute
  if 0 < days then s!"{days}d{hours}h"
  else if 0 < hours then s!"{hours}h{minutes}m"
  else s!"{minutes}m{c2 / nsPerSecond % 60}s"

/-- C8, claim-side rendering: successive quotients/remainders of the
clamped duration, selected by unit thresholds. -/
def formatAgeSpec (d : Int) : String :=
  let c := d.toNat
  let days := c / nsPerDay
  let hours := c % nsPerDay / nsPerHour
  let minutes := c % nsPerHour / nsPerMinute
  let seconds := c % nsPerMinute / nsPerSecond
  if nsPerDay ≤ c then s!"{days}d{hours}h"
  else if nsPerHour ≤ c then s!"{hours}h{minutes}m"
  else s!"{minutes}m{seconds}s"

theorem formatAge_eq_spec (d : Int) : formatAge d = formatAgeSpec d := by
  simp only [formatAge, formatAgeSpec, nsPerDay, nsPerHour, nsPerMinute, nsPerSecond]
  set c := d.toNat with hc
  have h1 : c - c / 86400000000000 * 86400000000000 = c % 86400000000000 := by omega
  have h2 : c % 86400000000000 - c % 86400000000000 / 3600000000000 * 3600000000000
      = c % 3600000000000 := by omega
  have h3 : c % 3600000000000 / 1000000000 % 60 = c % 60000000000 / 1000000000 := by omega
  rw [h1, h2, h3]
  by_cases hD : 86400000000000 ≤ c
  · rw [if_pos (show 0 < c / 86400000000000 by omega), if_pos hD]
  · rw [if_neg (show ¬ 0 < c / 86400000000000 by omega), if_neg hD]
    by_cases hH : 3600000000000 ≤ c
    · rw [if_pos (show 0 < c % 86400000000000 / 3600000000000 by omega), if_pos hH]
    · rw [if_neg (show ¬ 0 < c % 86400000000000 / 3600000000000 by omega), if_neg hH]

/-- C8: FormatAge clamps negative durations to zero and then renders
`"{days}d{hours}h"` when at least one day, else `"{hours}h{minutes}m"`
when at least one hour, else `"{minutes}m{seconds}s"`, the components
being the successive integer quotients/remainders; any negative duration
renders as `"0m0s"`. -/
theorem c8_formatAge_rendering (d : Int) :
    formatAge d = formatAgeSpec d ∧ (d < 0 → formatAge d = "0m0s") := by
  refine ⟨formatAge_eq_spec d, fun hneg => ?_⟩
  rw [formatAge_eq_spec d]
  unfold formatAgeSpec
  have h0 : d.toNat = 0 := Int.toNat_of_nonpos (le_of_lt hneg)
  rw [h0]
  decide

/-- Witness for C8 at the concrete negative duration `-5` ns. -/
theorem c8_witness : formatAge (-5) = "0m0s" :=
  (c8_formatAge_rendering (-5)).2 (by decide)

/-! ## Deployment store (`internal/deploy/store.go`) -/

namespace Deploy

/-- `deploy.Container`. -/
structure Container where
  name : String
  image : String
  ports : List Int
  deriving DecidableEq, Repr

/-- `deploy.conditionRecord` (instants kept as `Int` nanoseconds). -/
structure ConditionRecord where
  type : String
  status : String
  message : String
  lastUpdate : Int
  lastTransition : Int
  deriving DecidableEq, Repr

/-- `deploy.Summary`.  `namespace` is a Lean keyword, hence `nspace`. -/
structure Summary where
  name : String
  nspace : String
  readyReplicas : Int
  updatedReplicas : Int
  desiredReplicas : Int
  strategy : String
  images : List String
  age : String
  status : String
  deriving DecidableEq, Repr

/-- `deploy.Condition` as returned in a `Detail`; the two RFC3339-formatted
timestamps are modelled by the instants they render. -/
structure Condition where
  type : String
  status : String
  message : String
  lastUpdate : Int
  lastTransition : Int
  deriving DecidableEq, Repr

/-- `deploy.record`. -/
structure Record where
  summary : Summary
  createdAt : Int
  revision : Int
  labels : List (String × String)
  selector : List (String × String)
  containers : List Container
  conditions : List ConditionRecord
  lastUpdate : Int
  deriving DecidableEq, Repr

/-- `deploy.Detail`; `lastUpdated` models the RFC3339 rendering of the
record's last-update instant by the instant itself. -/
structure Detail where
  summary : Summary
  labels : List (String × String)
  selector : List (String × String)
  containers : List Container
  conditions : List Condition
  revision : Int
  lastUpdated : Int
  deriving DecidableEq, Repr

/-- The two error values `deploy.ErrNotFound` / `deploy.ErrInvalidReplicas`. -/
inductive Err where
  | notFound
  | invalidReplicas
  deriving DecidableEq, Repr

/-- The store contents: `map[string]record` keyed `namespace + "/" + name`
(the `key` function), modelled as an association list. -/
abbrev State := List (String × Record)

/-- `key(namespace, name)`. -/
def recKey (nspace name : String) : String := nspace ++ "/" ++ name

/-- `decorateSummary`: stamp age and derive status from the counts. -/
def decorateSummary (sum : Summary) (created now : Int) : Summary :=
  { sum with
    age := formatAge (now - created)
    status :=
      if sum.readyReplicas = sum.desiredReplicas then "Healthy"
      else if sum.readyReplicas = 0 then "Down"
      else "Updating" }

/-- `copyMap` copies its argument (or yields `nil` for an empty one); in a
value model the content is unchanged. -/
def copyMap (src : List (String × String)) : List (String × String) := src

/-- `toDetail`. -/
def toDetail (rec : Record) (now : Int) : Detail :=
  { summary := decorateSummary rec.summary rec.createdAt now
    labels := copyMap rec.labels
    selector := copyMap rec.selector
    containers := rec.containers
    conditions := rec.conditions.map fun c =>
      { type := c.type, status := c.status, message := c.message
        lastUpdate := c.lastUpdate, lastTransition := c.lastTransition }
    revision := rec.revision
    lastUpdated := rec.lastUpdate }

/-- `defaultSeed(now)`. -/
def defaultSeed (now : Int) : List Record := [
  { summary := {
      name := "frontend",
      nspace := "default",
      readyReplicas := 4,
      updatedReplicas := 4,
      desiredReplicas := 4,
      strategy := "RollingUpdate",
      images := ["registry.local/frontend:2.3.1"],
      age := "",
      status := "" },
    createdAt := now + hoursNs (-72),
    revision := 7,
    labels := [("app", "frontend"), ("version", "v2")],
    selector := [("app", "frontend")],
    containers := [{ name := "frontend", image := "registry.local/frontend:2.3.1", ports := [80, 443] }],
    conditions := [{
      type := "Available",
      status := "True",
      message := "Deployment has minimum availability.",
      lastUpdate := now + hoursNs (-2),
      lastTransition := now + hoursNs (-72) + hoursNs 12 }],
    lastUpdate := now + minutesNs (-30) },
  { summary := {
      name := "backend",
      nspace := "prod",
      readyReplicas := 5,
      updatedReplicas := 3,
      desiredReplicas := 6,
      strategy := "RollingUpdate",
      images := ["registry.local/backend:1.12.0"],
      age := "",
      status := "" },
    createdAt := now + hoursNs (-72) + hoursNs (-24),
    revision := 21,
    labels := [("app", "backend"), ("tier", "api")],
    selector := [("app", "backend")],
    containers := [{ name := "api", image := "registry.local/backend:1.12.0", ports := [8080] }],
    conditions := [{
      type := "Progressing",
      status := "True",
      message := "ReplicaSet backend-546cdfd756 is progressing.",
      lastUpdate := now + minutesNs (-10),
      lastTransition := now + minutesNs (-10) }],
    lastUpdate := now + minutesNs (-5) },
  { summary := {
      name := "batch-jobs",
      nspace := "batch",
      readyReplicas := 0,
      updatedReplicas := 0,
      desiredReplicas := 2,
      strategy := "Recreate",
      images := ["registry.local/batch:0.5.0"],
      age := "",
      status := "" },
    createdAt := now + hoursNs (-72) + hoursNs (-6),
    revision := 4,
    labels := [("app", "batch-jobs"), ("team", "data")],
    selector := [("app", "batch-jobs")],
    containers := [{ name := "runner", image := "registry.local/batch:0.5.0", ports := [] }],
    conditions := [{
      type := "Available",
      status := "False",
      message := "Deployment does not have minimum availability.",
      lastUpdate := now + minutesNs (-50),
      lastTransition := now + minutesNs (-50) }],
    lastUpdate := now + minutesNs (-45) } ]

/-- `NewStore(now)`: insert each seed record under `key(ns, name)`. -/
def newStore (now : Int) : State :=
  (defaultSeed now).foldl (fun st rec => mapInsert (recKey rec.summary.nspace rec.summary.name) rec st) []

/-- The first record whose `Name` equals `name`, with its map key — the
search both `Get` and `Scale` perform by ranging over the map.  (Go's map
iteration order is unspecified; the list order realises one admissible
order, and on every state this program constructs names are unique, so
the choice is immaterial there.) -/
def findName (name : String) : State → Option (String × Record)
  | [] => none
  | (k, rec) :: rest => if rec.summary.name = name then some (k, rec) else findName name rest

/-- `Get(name, now)`. -/
def get (st : State) (name : String) (now : Int) : Except Err Detail :=
  match findName name st with
  | some (_, rec) => .ok (toDetail rec now)
  | none => .error .notFound

/-- `List(now)` is read-only; its output plays no role in the claims below
and is omitted.  The scaled copy of a record written back by `Scale`: -/
def scaleUpd (rec : Record) (replicas now : Int) : Record :=
  { rec with
    summary := { rec.summary with
      desiredReplicas := replicas
      readyReplicas := if rec.summary.readyReplicas > replicas then replicas
                       else rec.summary.readyReplicas
      updatedReplicas := if rec.summary.updatedReplicas > replicas then replicas
                         else rec.summary.updatedReplicas }
    lastUpdate := now
    revision := rec.revision + 1 }

/-- The range loop inside `Scale`: find the record by name, write the
updated copy back under its key, return its detail. -/
def scaleGo (name : String) (replicas now : Int) : State → Except Err Detail × State
  | [] => (.error .notFound, [])
  | (k, rec) :: rest =>
    if rec.summary.name = name then
      let rec' := scaleUpd rec replicas now
      (.ok (toDetail rec' now), (k, rec') :: rest)
    else
      let p := scaleGo name replicas now rest
      (p.1, (k, rec) :: p.2)

/-- `Scale(name, replicas, now)`: bounds check before any mutation, then
the update loop. -/
def scale (st : State) (name : String) (replicas now : Int) : Except Err Detail × State :=
  if replicas < 0 ∨ replicas > 200 then (.error .invalidReplicas, st)
  else scaleGo name replicas now st

end Deploy

namespace Deploy

/-- The per-record consistency invariant of the specification:
`0 ≤ ready ≤ desired` and `0 ≤ updated ≤ desired`. -/
def invRec (rec : Record) : Prop :=
  0 ≤ rec.summary.readyReplicas ∧ rec.summary.readyReplicas ≤ rec.summary.desiredReplicas ∧
  0 ≤ rec.summary.updatedReplicas ∧ rec.summary.updatedReplicas ≤ rec.summary.desiredReplicas

instance (rec : Record) : Decidable (invRec rec) := by unfold invRec; infer_instance

/-- The states the deployment store can reach: the seeded state, plus
anything a `Scale` call produces.  `List` and `Get` only read the state
(in the source they take the read lock and mutate nothing), so they
contribute no transition. -/
inductive Reachable : State → Prop
  | seed (now : Int) : Reachable (newStore now)
  | scaleStep {s : State} (h : Reachable s) (name : String) (replicas now : Int) :
      Reachable (scale s name replicas now).2

theorem findName_eq_name {name : String} :
    ∀ {st : State} {k : String} {rec : Record},
      findName name st = some (k, rec) → rec.summary.name = name := by
  intro st
  induction st with
  | nil => intro k rec h; simp [findName] at h
  | cons p rest ih =>
    intro k rec h
    by_cases hn : p.2.summary.name = name
    · rw [findName, if_pos hn] at h
      obtain ⟨rfl, rfl⟩ : p.1 = k ∧ p.2 = rec := by
        constructor <;> [exact congrArg Prod.fst (Option.some.inj h);
          exact congrArg Prod.snd (Option.some.inj h)]
      exact hn
    · rw [findName, if_neg hn] at h
      exact ih h

theorem scaleGo_of_findName_none {name : String} {replicas now : Int} :
    ∀ {st : State}, findName name st = none →
      scaleGo name replicas now st = (.error .notFound, st) := by
  intro st
  induction st with
  | nil => intro _; rfl
  | cons p rest ih =>
    intro h
    by_cases hn : p.2.summary.name = name
    · rw [findName, if_pos hn] at h; exact absurd h (by simp)
    · rw [findName, if_neg hn] at h
      show scaleGo name replicas now (p :: rest) = _
      rw [show p = (p.1, p.2) from rfl, scaleGo, if_neg hn, ih h]

theorem scaleGo_of_findName_some {name : String} {replicas now : Int} :
    ∀ {st : State} {k : String} {rec : Record}, findName name st = some (k, rec) →
      ∃ pre post, st = pre ++ (k, rec) :: post ∧
        (∀ q ∈ pre, q.2.summary.name ≠ name) ∧
        scaleGo name replicas now st
          = (.ok (toDetail (scaleUpd rec replicas now) now),
             pre ++ (k, scaleUpd rec replicas now) :: post) := by
  intro st
  induction st with
  | nil => intro k rec h; simp [findName] at h
  | cons p rest ih =>
    intro k rec h
    by_cases hn : p.2.summary.name = name
    · rw [findName, if_pos hn] at h
      obtain ⟨hk, hr⟩ : p.1 = k ∧ p.2 = rec := by
        constructor <;> [exact congrArg Prod.fst (Option.some.inj h);
          exact congrArg Prod.snd (Option.some.inj h)]
      refine ⟨[], rest, ?_, by simp, ?_⟩
      · rw [List.nil_append, ← hk, ← hr]
      · show scaleGo name replicas now (p :: rest) = _
        rw [show p = (p.1, p.2) from rfl, scaleGo, if_pos hn, hk, hr]
        rfl
    · rw [findName, if_neg hn] at h
      obtain ⟨pre, post, hst, hpre, hgo⟩ := ih h
      refine ⟨p :: pre, post, by rw [List.cons_append, ← hst], ?_, ?_⟩
      · intro q hq
        rcases List.mem_cons.mp hq with rfl | hq'
        · exact hn
        · exact hpre q hq'
      · show scaleGo name replicas now (p :: rest) = _
        rw [show p = (p.1, p.2) from rfl, scaleGo, if_neg hn, hgo]
        rfl

theorem findName_append_of_not {name : String} {rec : Record} (hn : rec.summary.name = name) :
    ∀ (pre : List (String × Record)) (k : String) (post : List (String × Record)),
      (∀ q ∈ pre, q.2.summary.name ≠ name) →
      findName name (pre ++ (k, rec) :: post) = some (k, rec) := by
  intro pre
  induction pre with
  | nil => intro k post _; rw [List.nil_append, findName, if_pos hn]
  | cons p rest ih =>
    intro k post hpre
    rw [List.cons_append, show p = (p.1, p.2) from rfl, findName,
      if_neg (hpre p (List.mem_cons_self p rest))]
    exact ih k post (fun q hq => hpre q (List.mem_cons_of_mem p hq))

theorem scaleGo_err {name : String} {replicas now : Int} {st : State}
    (h : (scaleGo name replicas now st).1.isOk = false) :
    (scaleGo name replicas now st).2 = st := by
  cases hf : findName name st with
  | none => rw [scaleGo_of_findName_none hf]
  | some p =>
    obtain ⟨k, rec⟩ := p
    obtain ⟨pre, post, _, _, hgo⟩ := scaleGo_of_findName_some hf
    rw [hgo] at h
    simp [Except.isOk, Except.toBool] at h

theorem scaleUpd_inv {rec : Record} {replicas now : Int}
    (hr : invRec rec) (h0 : 0 ≤ replicas) :
    invRec (scaleUpd rec replicas now) := by
  obtain ⟨a, b, c, d⟩ := hr
  unfold invRec scaleUpd
  simp only []
  constructor
  · split <;> omega
  constructor
  · split <;> omega
  constructor
  · split <;> omega
  · split <;> omega

/-- The seed keys are pairwise distinct, so the three `mapInsert`s of
`NewStore` simply append: the seeded state is the seed list keyed by
`key(namespace, name)`. -/
theorem newStore_eq (now : Int) :
    newStore now
      = (defaultSeed now).map (fun rec => (recKey rec.summary.nspace rec.summary.name, rec)) := by
  rfl

theorem seed_inv (now : Int) : ∀ q ∈ newStore now, invRec q.2 := by
  intro q hq
  rw [newStore_eq] at hq
  obtain ⟨rec, hrec, rfl⟩ := List.mem_map.mp hq
  simp only [defaultSeed, List.mem_cons, List.not_mem_nil, or_false] at hrec
  rcases hrec with rfl | rfl | rfl <;>
    exact ⟨by norm_num, by norm_num, by norm_num, by norm_num⟩

theorem reachable_inv {st : State} (h : Reachable st) : ∀ q ∈ st, invRec q.2 := by
  induction h with
  | seed now => exact seed_inv now
  | scaleStep hs name replicas now ih =>
    rename_i s
    intro q hq
    unfold scale at hq
    split at hq
    · exact ih q hq
    · rename_i hbound
      cases hf : findName name s with
      | none => rw [scaleGo_of_findName_none hf] at hq; exact ih q hq
      | some p =>
        obtain ⟨k, rec⟩ := p
        obtain ⟨pre, post, hst, _, hgo⟩ := scaleGo_of_findName_some hf
        rw [hgo] at hq
        simp only [List.mem_append, List.mem_cons] at hq
        rcases hq with hq | hq | hq
        · exact ih q (by rw [hst]; simp [hq])
        · rw [hq]
          exact scaleUpd_inv (ih (k, rec) (by rw [hst]; simp)) (by omega)
        · exact ih q (by rw [hst]; simp [hq])

end Deploy

/-- C1: for every deployment present in the store and every
`0 ≤ replicas ≤ 200`, `Scale` succeeds; afterwards the record has
`desired = replicas`, `ready`/`updated` clamped down to `replicas` when
they exceeded it (otherwise unchanged), `lastUpdate = now`,
`revision = prior revision + 1`, and the returned view's status is
`"Healthy"` when `ready = desired`, else `"Down"` when `ready = 0`,
else `"Updating"`. -/
theorem c1_scale_success (st : Deploy.State) (name : String) (replicas now : Int)
    {k : String} {rec : Deploy.Record}
    (h0 : 0 ≤ replicas) (h200 : replicas ≤ 200)
    (hf : Deploy.findName name st = some (k, rec)) :
    ∃ st' : Deploy.State,
      Deploy.scale st name replicas now
        = (.ok (Deploy.toDetail (Deploy.scaleUpd rec replicas now) now), st') ∧
      Deploy.findName name st' = some (k, Deploy.scaleUpd rec replicas now) ∧
      (Deploy.scaleUpd rec replicas now).summary.desiredReplicas = replicas ∧
      (Deploy.scaleUpd rec replicas now).summary.readyReplicas
        = (if rec.summary.readyReplicas > replicas then replicas
           else rec.summary.readyReplicas) ∧
      (Deploy.scaleUpd rec replicas now).summary.updatedReplicas
        = (if rec.summary.updatedReplicas > replicas then replicas
           else rec.summary.updatedReplicas) ∧
      (Deploy.scaleUpd rec replicas now).lastUpdate = now ∧
      (Deploy.scaleUpd rec replicas now).revision = rec.revision + 1 ∧
      (Deploy.toDetail (Deploy.scaleUpd rec replicas now) now).summary.status
        = (if (Deploy.scaleUpd rec replicas now).summary.readyReplicas = replicas
           then "Healthy"
           else if (Deploy.scaleUpd rec replicas now).summary.readyReplicas = 0
           then "Down"
           else "Updating") := by
  obtain ⟨pre, post, hst, hpre, hgo⟩ := Deploy.scaleGo_of_findName_some hf
  refine ⟨pre ++ (k, Deploy.scaleUpd rec replicas now) :: post, ?_, ?_, rfl, rfl, rfl, rfl, rfl, ?_⟩
  · rw [Deploy.scale, if_neg (by omega), hgo]
  · have hn : (Deploy.scaleUpd rec replicas now).summary.name = name := by
      show rec.summary.name = name
      exact Deploy.findName_eq_name hf
    exact Deploy.findName_append_of_not hn pre k post hpre
  · simp only [Deploy.toDetail, Deploy.decorateSummary, Deploy.scaleUpd]

/-- Witness for C1: scaling the seeded `frontend` deployment to 6
replicas succeeds. -/
theorem c1_witness :
    (Deploy.scale (Deploy.newStore 0) "frontend" 6 (minutesNs 1)).1.isOk = true := by
  obtain ⟨st', heq, -⟩ :=
    c1_scale_success (Deploy.newStore 0) "frontend" 6 (minutesNs 1)
      (by norm_num) (by norm_num) rfl
  rw [heq]
  rfl

/-- C2: on every reachable state of the deployment store (the seeded
state and anything `List`/`Get`/`Scale` produce — `List` and `Get` are
pure readers), every record satisfies `0 ≤ ready ≤ desired` and
`0 ≤ updated ≤ desired`; a successful `Scale` rewrites exactly the
record it found — whose revision becomes the prior revision plus one,
by `Deploy.scaleUpd` — and leaves every other record in place, and a
failed `Scale` changes nothing. -/
theorem c2_reachable_invariant (st : Deploy.State) (h : Deploy.Reachable st) :
    (∀ q ∈ st, Deploy.invRec q.2) ∧
    (∀ (name : String) (replicas now : Int) (k : String) (rec : Deploy.Record),
      Deploy.findName name st = some (k, rec) → 0 ≤ replicas → replicas ≤ 200 →
      ∃ pre post, st = pre ++ (k, rec) :: post ∧
        (Deploy.scale st name replicas now).2
          = pre ++ (k, Deploy.scaleUpd rec replicas now) :: post ∧
        (Deploy.scaleUpd rec replicas now).revision = rec.revision + 1) ∧
    (∀ (name : String) (replicas now : Int),
      (Deploy.scale st name replicas now).1.isOk = false →
      (Deploy.scale st name replicas now).2 = st) := by
  refine ⟨Deploy.reachable_inv h, ?_, ?_⟩
  · intro name replicas now k rec hf h0 h200
    obtain ⟨pre, post, hst, _, hgo⟩ := Deploy.scaleGo_of_findName_some hf
    exact ⟨pre, post, hst, by rw [Deploy.scale, if_neg (by omega), hgo], rfl⟩
  · intro name replicas now hfail
    rw [Deploy.scale] at hfail ⊢
    split at hfail
    · rename_i hcond
      rw [if_pos hcond]
    · rename_i hcond
      rw [if_neg hcond]
      exact Deploy.scaleGo_err hfail

/-- Witness for C2 at the seeded store: a failing scale (negative
replica count) leaves the state intact. -/
theorem c2_witness :
    (Deploy.scale (Deploy.newStore 0) "frontend" (-1) 0).2 = Deploy.newStore 0 :=
  (c2_reachable_invariant (Deploy.newStore 0) (Deploy.Reachable.seed 0)).2.2
    "frontend" (-1) 0 rfl

/-- C3: `Scale` with an out-of-range replica count fails with the
invalid-replica-count error and leaves the store untouched; `Scale`
with an in-range count but an unknown name fails with not-found and
likewise leaves the store untouched. -/
theorem c3_scale_errors (st : Deploy.State) (name : String) (replicas now : Int) :
    ((replicas < 0 ∨ replicas > 200) →
      Deploy.scale st name replicas now = (.error .invalidReplicas, st)) ∧
    (0 ≤ replicas → replicas ≤ 200 → Deploy.findName name st = none →
      Deploy.scale st name replicas now = (.error .notFound, st)) := by
  constructor
  · intro hbad
    rw [Deploy.scale, if_pos hbad]
  · intro h0 h200 hnone
    rw [Deploy.scale, if_neg (by omega), Deploy.scaleGo_of_findName_none hnone]

/-- Witness for C3: both failure modes at the seeded store. -/
theorem c3_witness :
    Deploy.scale (Deploy.newStore 0) "frontend" (-1) 0
      = (.error .invalidReplicas, Deploy.newStore 0) ∧
    Deploy.scale (Deploy.newStore 0) "missing" 5 0
      = (.error .notFound, Deploy.newStore 0) :=
  ⟨(c3_scale_errors (Deploy.newStore 0) "frontend" (-1) 0).1 (by norm_num),
   (c3_scale_errors (Deploy.newStore 0) "missing" 5 0).2 (by norm_num) (by norm_num) rfl⟩

/-! ## Namespace store (`internal/namespace/store.go`) -/

namespace Ns

/-- `namespace.record`. -/
structure Record where
  name : String
  status : String
  createdAt : Int
  labels : List (String × String)
  deriving DecidableEq, Repr

/-- `namespace.Namespace` (the JSON view); `createdAt` models the
RFC3339 rendering of the creation instant by the instant itself. -/
structure View where
  name : String
  status : String
  age : String
  createdAt : Int
  labels : List (String × String)
  deriving DecidableEq, Repr

/-- `namespace.ErrInvalidName` / `namespace.ErrExists`. -/
inductive Err where
  | invalidName
  | exists_
  deriving DecidableEq, Repr

/-- The store contents: `map[string]record` keyed by name. -/
abbrev State := List (String × Record)

/-- Whether `c` is in the regex class `[a-z0-9]`. -/
def isLowerAlnum (c : Char) : Bool :=
  ('a' ≤ c && c ≤ 'z') || ('0' ≤ c && c ≤ '9')

/-- `namespaceNameRegex.MatchString` on a character list: the anchored
regex `[a-z0-9]([-a-z0-9]*[a-z0-9])?` matches exactly the nonempty
strings over `[-a-z0-9]` whose first and last characters are in
`[a-z0-9]`. -/
def dnsRegexMatchL : List Char → Bool
  | [] => false
  | c :: cs =>
    isLowerAlnum c && cs.all (fun d => isLowerAlnum d || d == '-') &&
    (match cs.getLast? with
     | none => true
     | some d => isLowerAlnum d)

/-- `namespaceNameRegex.MatchString`. -/
def dnsRegexMatch (s : String) : Bool := dnsRegexMatchL s.data

/-- The full name validation of `Create`, on a character list:
`clean == "" || len(clean) > 63 || !namespaceNameRegex.MatchString(clean)`
(negated).  String length is in bytes in Go; any string passing the
regex is ASCII, where byte and character counts agree, so the character
count is faithful. -/
def validNameL (d : List Char) : Bool :=
  !(d.isEmpty || 63 < d.length || !dnsRegexMatchL d)

/-- The name validation of `Create`. -/
def validName (clean : String) : Bool := validNameL clean.data

/-- `mergeLabels(name, custom)`: the two deterministic defaults,
overridden by the caller-supplied pairs. -/
def mergeLabels (name : String) (custom : List (String × String)) : List (String × String) :=
  custom.foldl (fun acc kv => mapInsert kv.1 kv.2 acc)
    [("kubernetes.io/metadata.name", name), ("app.kubernetes.io/managed-by", "mock-dashboard")]

/-- `toNamespace`. -/
def toView (rec : Record) (now : Int) : View :=
  { name := rec.name, status := rec.status, age := formatAge (now - rec.createdAt),
    createdAt := rec.createdAt, labels := rec.labels }

/-- `Create(name, now, labels)`. -/
def create (st : State) (name : String) (now : Int) (labels : List (String × String)) :
    Except Err View × State :=
  let clean := goTrimSpace name
  if !validName clean then (.error .invalidName, st)
  else
    match mapLookup clean st with
    | some _ => (.error .exists_, st)
    | none =>
      -- `createdAt := now.UTC()`: same instant.
      let r : Record := { name := clean, status := "Active", createdAt := now,
                          labels := mergeLabels clean labels }
      (.ok (toView r now), mapInsert clean r st)

/-- `Delete(name)`. -/
def delete (st : State) (name : String) : Bool × State :=
  let clean := goTrimSpace name
  match mapLookup clean st with
  | none => (false, st)
  | some _ => (true, mapErase clean st)

/-- `defaultSeed(now)`. -/
def defaultSeed (now : Int) : List Record := [
  { name := "default",
    status := "Active",
    createdAt := now + hoursNs (-48),
    labels := [("kubernetes.io/metadata.name", "default")] },
  { name := "kube-system",
    status := "Active",
    createdAt := now + hoursNs (-48) + hoursNs (-24),
    labels := [("kubernetes.io/metadata.name", "kube-system"),
               ("pod-security.kubernetes.io/enforce", "privileged")] },
  { name := "monitoring",
    status := "Active",
    createdAt := now + hoursNs (-48) + hoursNs 6,
    labels := [("team", "sre"), ("kubernetes.io/metadata.name", "monitoring")] } ]

/-- `NewStore(now)`. -/
def newStore (now : Int) : State :=
  (defaultSeed now).foldl (fun st rec => mapInsert rec.name rec st) []

end Ns

/-- The DNS-label pattern exactly as claim C5 words it, on a character
list: nonempty, at most 63 characters, lowercase alphanumerics and
hyphens only, not starting or ending with a hyphen. -/
def claimDNSLabelPatternL (d : List Char) : Bool :=
  !d.isEmpty && d.length ≤ 63 &&
  d.all (fun c => Ns.isLowerAlnum c || c == '-') &&
  (match d.head? with | none => false | some c => Ns.isLowerAlnum c) &&
  (match d.getLast? with | none => false | some c => Ns.isLowerAlnum c)

/-- The DNS-label pattern exactly as claim C5 words it. -/
def claimDNSLabelPattern (s : String) : Bool := claimDNSLabelPatternL s.data

/-- The code's name check agrees with the claim's description of the
DNS-label pattern. -/
theorem validNameL_iff_claimL (d : List Char) :
    Ns.validNameL d = true ↔ claimDNSLabelPatternL d = true := by
  cases d with
  | nil => decide
  | cons c cs =>
    cases cs with
    | nil =>
      simp only [Ns.validNameL, claimDNSLabelPatternL, Ns.dnsRegexMatchL,
        List.isEmpty_cons, List.length_cons, List.length_nil, List.all_cons, List.all_nil,
        List.head?_cons, List.getLast?_singleton, List.getLast?_nil,
        Bool.not_eq_true', Bool.not_eq_false', Bool.or_eq_false_iff, Bool.and_eq_true,
        Bool.or_eq_true, decide_eq_false_iff_not, decide_eq_true_eq, Bool.not_false,
        Bool.and_true, Nat.not_lt]
      tauto
    | cons c2 cs2 =>
      cases hl : (c2 :: cs2).getLast? with
      | none => exact absurd hl (by simp)
      | some x =>
        simp only [Ns.validNameL, claimDNSLabelPatternL, Ns.dnsRegexMatchL,
          List.getLast?_cons_cons, hl,
          List.isEmpty_cons, List.length_cons, List.all_cons,
          List.head?_cons,
          Bool.not_eq_true', Bool.not_eq_false', Bool.or_eq_false_iff, Bool.and_eq_true,
          Bool.or_eq_true, decide_eq_false_iff_not, decide_eq_true_eq, Bool.not_false,
          Bool.and_true, Nat.not_lt]
        tauto

theorem mapLookup_mapInsert {α : Type} (k k' : String) (v : α) :
    ∀ m : List (String × α),
      mapLookup k (mapInsert k' v m) = if k' = k then some v else mapLookup k m := by
  intro m
  induction m with
  | nil => rfl
  | cons p rest ih =>
    show mapLookup k (mapInsert k' v ((p.1, p.2) :: rest)) = _
    rw [mapInsert]
    by_cases h1 : p.1 = k'
    · rw [if_pos h1]
      by_cases h2 : k' = k
      · rw [mapLookup, if_pos h2, if_pos h2]
      · rw [mapLookup, if_neg h2, if_neg h2, mapLookup, if_neg (h1 ▸ h2)]
    · rw [if_neg h1, mapLookup, mapLookup]
      by_cases h2 : p.1 = k
      · rw [if_pos h2, if_pos h2, if_neg (fun hk => h1 (h2.trans hk.symm))]
      · rw [if_neg h2, if_neg h2, ih]

theorem mapLookup_eq_none_of_not_mem {α : Type} (k : String) :
    ∀ m : List (String × α), k ∉ m.map Prod.fst → mapLookup k m = none := by
  intro m
  induction m with
  | nil => intro _; rfl
  | cons p rest ih =>
    intro h
    rw [List.map_cons, List.mem_cons] at h
    push_neg at h
    show mapLookup k ((p.1, p.2) :: rest) = none
    rw [mapLookup, if_neg (fun he => h.1 he.symm)]
    exact ih h.2

theorem foldl_mapInsert_lookup {α : Type} (k : String) :
    ∀ (custom : List (String × α)) (base : List (String × α)),
      (custom.map Prod.fst).Nodup →
      mapLookup k (custom.foldl (fun acc kv => mapInsert kv.1 kv.2 acc) base)
        = (match mapLookup k custom with
           | some v => some v
           | none => mapLookup k base) := by
  intro custom
  induction custom with
  | nil => intro base _; rfl
  | cons p rest ih =>
    intro base hnd
    rw [List.map_cons, List.nodup_cons] at hnd
    rw [List.foldl_cons, ih (mapInsert p.1 p.2 base) hnd.2]
    show _ = (match mapLookup k ((p.1, p.2) :: rest) with
              | some v => some v
              | none => mapLookup k base)
    rw [mapLookup]
    by_cases h1 : p.1 = k
    · rw [if_pos h1,
        mapLookup_eq_none_of_not_mem k rest (by rw [← h1]; exact hnd.1),
        mapLookup_mapInsert, if_pos h1]
    · rw [if_neg h1]
      cases hr : mapLookup k rest with
      | some v => rfl
      | none => simp only []; rw [mapLookup_mapInsert, if_neg h1]

/-- The code's name check, lifted to strings, agrees with the claim's
DNS-label pattern. -/
theorem validName_iff_claim (s : String) :
    Ns.validName s = true ↔ claimDNSLabelPattern s = true :=
  validNameL_iff_claimL s.data

/-- C5 counterexample: `Create` first trims whitespace, so
`Create(" staging ", now, labels)` succeeds on the seeded store even
though `" staging "` itself does not match the DNS-label pattern —
refuting "fails with InvalidIdentity exactly when the name does not
match the pattern". -/
theorem c5_counterexample :
    claimDNSLabelPattern " staging " = false ∧
    (Ns.create (Ns.newStore 0) " staging " 0 []).1.isOk = true := by
  constructor
  · decide
  · decide

/-- C5 (amended): `Create` fails with InvalidIdentity exactly when the
whitespace-TRIMMED name does not match the DNS-label pattern (nonempty,
at most 63 characters, lowercase alphanumerics and hyphens, not
starting or ending with a hyphen); it fails with AlreadyExists when a
record with the trimmed key is present; on success it stores a record
whose creation instant is `now` and whose labels are the two
deterministic default labels merged with the caller-supplied labels,
caller values winning on conflicting keys. -/
theorem c5_create_validation (st : Ns.State) (name : String) (now : Int)
    (labels : List (String × String)) :
    (claimDNSLabelPattern (goTrimSpace name) = false →
      Ns.create st name now labels = (.error .invalidName, st)) ∧
    (claimDNSLabelPattern (goTrimSpace name) = true →
      (∀ r0 : Ns.Record, mapLookup (goTrimSpace name) st = some r0 →
        Ns.create st name now labels = (.error .exists_, st)) ∧
      (mapLookup (goTrimSpace name) st = none →
        ∃ r : Ns.Record,
          Ns.create st name now labels
            = (.ok (Ns.toView r now), mapInsert (goTrimSpace name) r st) ∧
          r.name = goTrimSpace name ∧ r.status = "Active" ∧ r.createdAt = now ∧
          r.labels = Ns.mergeLabels (goTrimSpace name) labels ∧
          ((labels.map Prod.fst).Nodup → ∀ key : String,
            (∀ v, mapLookup key labels = some v → mapLookup key r.labels = some v) ∧
            (mapLookup key labels = none →
              mapLookup key r.labels
                = mapLookup key
                    [("kubernetes.io/metadata.name", goTrimSpace name),
                     ("app.kubernetes.io/managed-by", "mock-dashboard")])))) := by
  constructor
  · intro hbad
    have hv : Ns.validName (goTrimSpace name) = false := by
      cases hvn : Ns.validName (goTrimSpace name) with
      | false => rfl
      | true => rw [(validName_iff_claim _).mp hvn] at hbad; exact absurd hbad (by simp)
    simp only [Ns.create, hv, Bool.not_false, if_true]
  · intro hgood
    have hv : Ns.validName (goTrimSpace name) = true := (validName_iff_claim _).mpr hgood
    constructor
    · intro r0 hr0
      simp only [Ns.create, hv, Bool.not_true, Bool.false_eq_true, if_false, hr0]
    · intro hnone
      refine ⟨{ name := goTrimSpace name, status := "Active", createdAt := now,
                labels := Ns.mergeLabels (goTrimSpace name) labels }, ?_, rfl, rfl, rfl, rfl, ?_⟩
      · simp only [Ns.create, hv, Bool.not_true, Bool.false_eq_true, if_false, hnone]
      · intro hnd key
        have hbase := foldl_mapInsert_lookup key labels
          [("kubernetes.io/metadata.name", goTrimSpace name),
           ("app.kubernetes.io/managed-by", "mock-dashboard")] hnd
        constructor
        · intro v hv
          show mapLookup key (Ns.mergeLabels (goTrimSpace name) labels) = some v
          unfold Ns.mergeLabels
          rw [hbase, hv]
        · intro hv
          show mapLookup key (Ns.mergeLabels (goTrimSpace name) labels) = _
          unfold Ns.mergeLabels
          rw [hbase, hv]

/-- Witness for C5 (amended): an underscore makes the name invalid. -/
theorem c5_witness :
    Ns.create (Ns.newStore 0) "Bad_Name" 0 [] = (.error .invalidName, Ns.newStore 0) :=
  (c5_create_validation (Ns.newStore 0) "Bad_Name" 0 []).1 (by decide)

/-- C9: namespace `Create` and `Delete` trim surrounding whitespace from
the supplied name before validation, storage and lookup:
`Create("  staging  ", now, labels)` on the seeded store succeeds and
stores the key `"staging"`, and `Delete(" staging ")` then returns true
and removes the record keyed `"staging"`. -/
theorem c9_trim_create_delete (t0 now : Int) (labels : List (String × String)) :
    ∃ (r : Ns.Record) (st' : Ns.State),
      Ns.create (Ns.newStore t0) "  staging  " now labels = (.ok (Ns.toView r now), st') ∧
      r.name = "staging" ∧
      mapLookup "staging" st' = some r ∧
      (Ns.delete st' " staging ").1 = true ∧
      mapLookup "staging" (Ns.delete st' " staging ").2 = none := by
  refine ⟨{ name := "staging", status := "Active", createdAt := now,
            labels := Ns.mergeLabels "staging" labels },
          mapInsert "staging"
            { name := "staging", status := "Active", createdAt := now,
              labels := Ns.mergeLabels "staging" labels } (Ns.newStore t0),
          rfl, rfl, rfl, rfl, rfl⟩

/-! ## Diagnostic timeline store (`internal/node/store.go`, package `logs`)

The `Timestamp` string field of `LogEntry`/`Event` is modelled as
`Option Int`: `some t` stands for a string that parses under RFC3339 to
the instant `t` (as the RFC3339 rendering of an instant always does),
`none` for an empty or unparseable string.  `ListEvents` sorts the
rendered timestamp strings in decreasing order; on the instants this
program renders (one shared offset) that string order is the instant
order, so the model sorts the instants. -/

namespace Logs

/-- `logs.LogEntry`. -/
structure LogEntry where
  timestamp : Option Int
  nspace : String
  pod : String
  level : String
  message : String
  deriving DecidableEq, Repr

/-- `logs.Event`. -/
structure Event where
  timestamp : Option Int
  nspace : String
  kind : String
  name : String
  type : String
  reason : String
  message : String
  count : Int
  deriving DecidableEq, Repr

/-- `logs.LogFilter`. -/
structure LogFilter where
  nspace : String
  pod : String
  level : String
  limit : Int
  deriving DecidableEq, Repr

/-- `logs.logRecord`. -/
structure LogRecord where
  nspace : String
  pod : String
  level : String
  message : String
  createdAt : Int
  deriving DecidableEq, Repr

/-- `logs.eventRecord`. -/
structure EventRecord where
  nspace : String
  kind : String
  name : String
  type : String
  reason : String
  message : String
  count : Int
  occurred : Int
  deriving DecidableEq, Repr

/-- `logs.Store`: the two internal sequences. -/
structure State where
  logs : List LogRecord
  events : List EventRecord
  deriving DecidableEq, Repr

/-- A stored log record rendered as a `LogEntry`
(`Timestamp: rec.CreatedAt.Format(time.RFC3339)` parses back to the
instant, hence `some`). -/
def toLogEntry (rec : LogRecord) : LogEntry :=
  { timestamp := some rec.createdAt, nspace := rec.nspace, pod := rec.pod,
    level := rec.level, message := rec.message }

/-- The filter predicate of the `ListLogs` loop, after the filter fields
have been normalised to `nspace`/`pod` (trimmed, lowered) and `level`
(trimmed, uppered). -/
def logMatches (nspace pod level : String) (rec : LogRecord) : Bool :=
  (nspace == "" || goToLower rec.nspace == nspace) &&
  (pod == "" || goToLower rec.pod == pod) &&
  (level == "" || rec.level == level)

/-- The `ListLogs` loop: append matching entries, breaking once the
result has `limit` entries (`lim` is the remaining capacity). -/
def listLogsGo (nspace pod level : String) : Int → List LogRecord → List LogEntry
  | _, [] => []
  | lim, rec :: rest =>
    if logMatches nspace pod level rec then
      toLogEntry rec :: (if lim ≤ 1 then [] else listLogsGo nspace pod level (lim - 1) rest)
    else listLogsGo nspace pod level lim rest

/-- `ListLogs(now, filter)`.  The `now` argument of the Go method is
unused in its body, so the model omits it. -/
def listLogs (st : State) (filter : LogFilter) : List LogEntry :=
  let limit := if filter.limit ≤ 0 ∨ 200 < filter.limit then 50 else filter.limit
  let nspace := goTrimSpace (goToLower filter.nspace)
  let pod := goTrimSpace (goToLower filter.pod)
  let level := goTrimSpace (goToUpper filter.level)
  listLogsGo nspace pod level limit st.logs

/-- A stored event record rendered as an `Event`. -/
def toEvent (rec : EventRecord) : Event :=
  { timestamp := some rec.occurred, nspace := rec.nspace, kind := rec.kind,
    name := rec.name, type := rec.type, reason := rec.reason,
    message := rec.message, count := rec.count }

/-- Insert into a list sorted by `occurred` in decreasing order. -/
def insertByOccurredDesc (rec : EventRecord) : List EventRecord → List EventRecord
  | [] => [rec]
  | r :: rest =>
    if r.occurred ≥ rec.occurred then r :: insertByOccurredDesc rec rest
    else rec :: r :: rest

/-- The `sort.Slice` call of `ListEvents`: sort by formatted timestamp
descending, i.e. by instant descending (see the section comment). -/
def sortByOccurredDesc (evs : List EventRecord) : List EventRecord :=
  evs.foldr insertByOccurredDesc []

/-- `ListEvents(now)`. -/
def listEvents (st : State) : List Event :=
  (sortByOccurredDesc st.events).map toEvent

/-- `parseTimestamp(ts, fallback)`: empty or unparseable (`none`) falls
back; a parseable string is its instant. -/
def parseTimestamp (ts : Option Int) (fallback : Int) : Int := ts.getD fallback

/-- The record built by `AppendLog` (its internal `time.Now()` call is
the explicit `clock` argument). -/
def mkLogRecord (entry : LogEntry) (clock : Int) : LogRecord :=
  { nspace := entry.nspace, pod := entry.pod, level := goToUpper entry.level,
    message := entry.message, createdAt := parseTimestamp entry.timestamp clock }

/-- `AppendLog(entry)`: prepend. -/
def appendLog (st : State) (entry : LogEntry) (clock : Int) : State :=
  { st with logs := mkLogRecord entry clock :: st.logs }

/-- The record built by `AppendEvent`. -/
def mkEventRecord (ev : Event) (clock : Int) : EventRecord :=
  { nspace := ev.nspace, kind := ev.kind, name := ev.name, type := ev.type,
    reason := ev.reason, message := ev.message, count := ev.count,
    occurred := parseTimestamp ev.timestamp clock }

/-- `AppendEvent(ev)`: prepend. -/
def appendEvent (st : State) (ev : Event) (clock : Int) : State :=
  { st with events := mkEventRecord ev clock :: st.events }

/-- `defaultLogs(now)`. -/
def defaultLogs (now : Int) : List LogRecord := [
  { nspace := "default", pod := "frontend-7d8fdc9f7c-abc12", level := "INFO",
    message := "GET / 200 18ms", createdAt := now + minutesNs (-5) },
  { nspace := "default", pod := "frontend-7d8fdc9f7c-abc12", level := "INFO",
    message := "GET /healthz 200 5ms", createdAt := now + minutesNs (-5) + secondsNs 20 },
  { nspace := "default", pod := "frontend-7d8fdc9f7c-def34", level := "WARN",
    message := "upstream latency 430ms", createdAt := now + minutesNs (-5) + secondsNs 38 },
  { nspace := "prod", pod := "edge-gateway-7d8fdc9f7c-9012a", level := "ERROR",
    message := "listener restart due to config reload",
    createdAt := now + minutesNs (-5) + secondsNs 64 },
  { nspace := "prod", pod := "edge-gateway-7d8fdc9f7c-9012a", level := "INFO",
    message := "probe /ready succeeded", createdAt := now + minutesNs (-5) + secondsNs 80 },
  { nspace := "prod", pod := "backend-76c4d5f6d6-xyz89", level := "INFO",
    message := "processed job 3498", createdAt := now + minutesNs (-5) + secondsNs 95 },
  { nspace := "prod", pod := "backend-76c4d5f6d6-xyz89", level := "WARN",
    message := "cache miss ratio 42% exceeds threshold",
    createdAt := now + minutesNs (-5) + minutesNs 2 },
  { nspace := "batch", pod := "batch-runner-5b87d7fbc6-kx912", level := "INFO",
    message := "scheduled job nightly-sync", createdAt := now + minutesNs (-5) + secondsNs 150 },
  { nspace := "batch", pod := "batch-runner-5b87d7fbc6-kx912", level := "ERROR",
    message := "job nightly-sync failed: no nodes available",
    createdAt := now + minutesNs (-5) + secondsNs 165 },
  { nspace := "batch", pod := "batch-runner-5b87d7fbc6-kx912", level := "INFO",
    message := "retry scheduled in 30s", createdAt := now + minutesNs (-5) + minutesNs 3 } ]

/-- `defaultEvents(now)`. -/
def defaultEvents (now : Int) : List EventRecord := [
  { nspace := "default", kind := "Deployment", name := "frontend", type := "Normal",
    reason := "ScalingReplicaSet", message := "Scaled up replica set frontend-7d8fdc9f7c to 3",
    count := 1, occurred := now + minutesNs (-12) },
  { nspace := "prod", kind := "Pod", name := "edge-gateway-7d8fdc9f7c-9012a", type := "Warning",
    reason := "FailedScheduling", message := "0/3 nodes available: Insufficient MEMORY",
    count := 3, occurred := now + minutesNs (-9) },
  { nspace := "prod", kind := "Pod", name := "edge-gateway-7d8fdc9f7c-9012b", type := "Normal",
    reason := "Pulled", message := "Successfully pulled image registry.local/edge:2.1.0",
    count := 1, occurred := now + minutesNs (-8) },
  { nspace := "batch", kind := "Job", name := "nightly-sync", type := "Warning",
    reason := "BackoffLimitExceeded", message := "Job has reached the specified backoff limit",
    count := 1, occurred := now + minutesNs (-5) },
  { nspace := "batch", kind := "Pod", name := "batch-runner-5b87d7fbc6-kx912", type := "Normal",
    reason := "Scheduled",
    message := "Successfully assigned batch/batch-runner-5b87d7fbc6-kx912 to node-2",
    count := 1, occurred := now + minutesNs (-3) } ]

/-- `NewStore(now)`. -/
def newStore (now : Int) : State :=
  { logs := defaultLogs now, events := defaultEvents now }

end Logs

theorem listLogsGo_eq (nspace pod level : String) :
    ∀ (logs : List Logs.LogRecord) (lim : Int), 1 ≤ lim →
      Logs.listLogsGo nspace pod level lim logs
        = ((logs.filter (Logs.logMatches nspace pod level)).map Logs.toLogEntry).take lim.toNat := by
  intro logs
  induction logs with
  | nil => intro lim _; simp [Logs.listLogsGo]
  | cons r rest ih =>
    intro lim hlim
    rw [Logs.listLogsGo]
    by_cases hm : Logs.logMatches nspace pod level r = true
    · rw [if_pos hm, List.filter_cons_of_pos hm, List.map_cons]
      by_cases h1 : lim ≤ 1
      · rw [if_pos h1, show lim.toNat = 1 by omega]
        rfl
      · rw [if_neg h1, ih (lim - 1) (by omega), show lim.toNat = (lim - 1).toNat + 1 by omega,
          List.take_succ_cons]
    · rw [if_neg hm, List.filter_cons_of_neg (by simp [hm]), ih lim hlim]

/-- C6 (amended): each `ListLogs` filter field is whitespace-trimmed
(and case-folded) before matching; the result is exactly the prefix of
length at most `L` of the matching entries in internal order, where
`L = filter.Limit` when `0 < Limit ≤ 200` and `50` otherwise; every
returned entry matches each filter field that is nonempty after
trimming by case-insensitive exact comparison with the trimmed value;
a field that is empty after trimming excludes no entry. -/
theorem c6_listLogs_filtering (st : Logs.State) (filter : Logs.LogFilter) :
    Logs.listLogs st filter
      = ((st.logs.filter
            (Logs.logMatches (goTrimSpace (goToLower filter.nspace))
              (goTrimSpace (goToLower filter.pod))
              (goTrimSpace (goToUpper filter.level)))).map Logs.toLogEntry).take
          (if filter.limit ≤ 0 ∨ 200 < filter.limit then 50 else filter.limit).toNat ∧
    (Logs.listLogs st filter).length
      ≤ (if filter.limit ≤ 0 ∨ 200 < filter.limit then 50 else filter.limit).toNat ∧
    (∀ e ∈ Logs.listLogs st filter,
      (goTrimSpace (goToLower filter.nspace) ≠ "" →
        goToLower e.nspace = goTrimSpace (goToLower filter.nspace)) ∧
      (goTrimSpace (goToLower filter.pod) ≠ "" →
        goToLower e.pod = goTrimSpace (goToLower filter.pod)) ∧
      (goTrimSpace (goToUpper filter.level) ≠ "" →
        e.level = goTrimSpace (goToUpper filter.level))) ∧
    (goTrimSpace (goToLower filter.nspace) = "" →
      goTrimSpace (goToLower filter.pod) = "" →
      goTrimSpace (goToUpper filter.level) = "" →
      Logs.listLogs st filter
        = (st.logs.map Logs.toLogEntry).take
            (if filter.limit ≤ 0 ∨ 200 < filter.limit then 50 else filter.limit).toNat) := by
  have hL : (1:Int) ≤ (if filter.limit ≤ 0 ∨ 200 < filter.limit then 50 else filter.limit) := by
    split <;> omega
  have hchar : Logs.listLogs st filter
      = ((st.logs.filter
            (Logs.logMatches (goTrimSpace (goToLower filter.nspace))
              (goTrimSpace (goToLower filter.pod))
              (goTrimSpace (goToUpper filter.level)))).map Logs.toLogEntry).take
          (if filter.limit ≤ 0 ∨ 200 < filter.limit then 50 else filter.limit).toNat := by
    rw [Logs.listLogs]
    exact listLogsGo_eq _ _ _ st.logs _ hL
  refine ⟨hchar, ?_, ?_, ?_⟩
  · rw [hchar]
    exact le_trans (List.length_take_le _ _) (le_refl _)
  · intro e he
    rw [hchar] at he
    have he2 := List.mem_of_mem_take he
    obtain ⟨rec, hrec, rfl⟩ := List.mem_map.mp he2
    have hmatch := List.of_mem_filter hrec
    rw [Logs.logMatches] at hmatch
    simp only [Bool.and_eq_true, Bool.or_eq_true, beq_iff_eq] at hmatch
    refine ⟨?_, ?_, ?_⟩
    · intro hne
      rcases hmatch.1.1 with h | h
      · exact absurd h hne
      · exact h
    · intro hne
      rcases hmatch.1.2 with h | h
      · exact absurd h hne
      · exact h
    · intro hne
      rcases hmatch.2 with h | h
      · exact absurd h hne
      · exact h
  · intro h1 h2 h3
    rw [hchar, h1, h2, h3]
    have hfl : List.filter (Logs.logMatches "" "" "") st.logs = st.logs :=
      List.filter_eq_self.mpr (fun rec _ => rfl)
    rw [hfl]

/-- C6 counterexample: with the non-empty filter field `" prod"`, the
returned entries have namespace `"prod"`, which is not equal to
`" prod"` under case-insensitive exact string comparison — the field is
trimmed first. -/
theorem c6_counterexample :
    ((Logs.listLogs (Logs.newStore 0)
        { nspace := " prod", pod := "", level := "", limit := 0 }).any
      (fun e => !(goToLower e.nspace == goToLower " prod"))) = true ∧
    " prod" ≠ "" := by
  constructor
  · decide
  · decide

/-- Witness for C6 (amended) at a concrete store and filter. -/
theorem c6_witness :
    (Logs.listLogs (Logs.newStore 0)
        { nspace := "", pod := "", level := "ERROR", limit := 0 }).length ≤ 50 ∧
    ({ timestamp := some (-236000000000), nspace := "prod",
       pod := "edge-gateway-7d8fdc9f7c-9012a", level := "ERROR",
       message := "listener restart due to config reload" } : Logs.LogEntry).level
      = "ERROR" := by
  constructor
  · exact (c6_listLogs_filtering (Logs.newStore 0)
      { nspace := "", pod := "", level := "ERROR", limit := 0 }).2.1
  · exact ((c6_listLogs_filtering (Logs.newStore 0)
        { nspace := "", pod := "", level := "ERROR", limit := 0 }).2.2.1
      { timestamp := some (-236000000000), nspace := "prod",
        pod := "edge-gateway-7d8fdc9f7c-9012a", level := "ERROR",
        message := "listener restart due to config reload" } (by decide)).2.2 (by decide)

/-- C7 (amended): `AppendLog` and `AppendEvent` insert the new record at
the front of the store's internal sequence; an immediately following
unfiltered `ListLogs` returns the appended log entry first, while
`ListEvents` re-sorts by timestamp descending (so the appended event is
returned first only when its instant is the most recent); when the
appended entry's timestamp is empty or not parseable as RFC3339 the
stored instant falls back to the current clock instant, and a parseable
timestamp is stored as parsed. -/
theorem c7_append_behaviour (st : Logs.State) (entry : Logs.LogEntry) (ev : Logs.Event)
    (clockL clockE : Int) :
    (Logs.appendLog st entry clockL).logs = Logs.mkLogRecord entry clockL :: st.logs ∧
    (entry.timestamp = none → (Logs.mkLogRecord entry clockL).createdAt = clockL) ∧
    (∀ t, entry.timestamp = some t → (Logs.mkLogRecord entry clockL).createdAt = t) ∧
    (Logs.listLogs (Logs.appendLog st entry clockL)
        { nspace := "", pod := "", level := "", limit := 0 }).head?
      = some (Logs.toLogEntry (Logs.mkLogRecord entry clockL)) ∧
    (Logs.appendEvent st ev clockE).events = Logs.mkEventRecord ev clockE :: st.events ∧
    (ev.timestamp = none → (Logs.mkEventRecord ev clockE).occurred = clockE) ∧
    (∀ t, ev.timestamp = some t → (Logs.mkEventRecord ev clockE).occurred = t) := by
  refine ⟨rfl, ?_, ?_, rfl, rfl, ?_, ?_⟩
  · intro h
    simp [Logs.mkLogRecord, Logs.parseTimestamp, h]
  · intro t h
    simp [Logs.mkLogRecord, Logs.parseTimestamp, h]
  · intro h
    simp [Logs.mkEventRecord, Logs.parseTimestamp, h]
  · intro t h
    simp [Logs.mkEventRecord, Logs.parseTimestamp, h]

/-- An event with a parseable timestamp older than every seeded event. -/
def oldEvent : Logs.Event :=
  { timestamp := some (minutesNs (-100)), nspace := "ops", kind := "Pod",
    name := "old-pod", type := "Normal", reason := "Created",
    message := "backfilled event", count := 1 }

/-- C7 counterexample: `AppendEvent` does put the new record at the
front of the internal sequence, but the immediately following
unfiltered read (`ListEvents`) sorts by timestamp descending and so
does not return an appended event carrying an old parseable timestamp
first. -/
theorem c7_counterexample :
    ((Logs.appendEvent (Logs.newStore 0) oldEvent 0).events.head?.map
        (fun r => r.name)) = some "old-pod" ∧
    ((Logs.listEvents (Logs.appendEvent (Logs.newStore 0) oldEvent 0)).head?.map
        (fun e => e.name)) = some "batch-runner-5b87d7fbc6-kx912" ∧
    ("batch-runner-5b87d7fbc6-kx912" : String) ≠ "old-pod" := by
  refine ⟨rfl, ?_, by decide⟩
  decide

/-- Witness for C7 (amended): the fallback and parse clauses at
concrete entries. -/
theorem c7_witness :
    (Logs.mkLogRecord
        { timestamp := none, nspace := "default", pod := "p", level := "info",
          message := "m" } 77).createdAt = 77 ∧
    (Logs.mkEventRecord oldEvent 0).occurred = minutesNs (-100) := by
  constructor
  · exact (c7_append_behaviour (Logs.newStore 0)
      { timestamp := none, nspace := "default", pod := "p", level := "info", message := "m" }
      oldEvent 77 0).2.1 rfl
  · exact (c7_append_behaviour (Logs.newStore 0)
      { timestamp := none, nspace := "default", pod := "p", level := "info", message := "m" }
      oldEvent 77 0).2.2.2.2.2.2 (minutesNs (-100)) rfl

/-! ## Service store (`package service`) -/

namespace Svc

/-- `service.Port`. -/
structure Port where
  name : String
  protocol : String
  port : Int
  targetPort : Int
  nodePort : Option Int
  deriving DecidableEq, Repr

/-- `service.RelatedPod`. -/
structure RelatedPod where
  name : String
  nspace : String
  status : String
  node : String
  deriving DecidableEq, Repr

/-- `service.Summary`. -/
structure Summary where
  name : String
  nspace : String
  type : String
  clusterIP : String
  externalIPs : List String
  ports : List Port
  status : String
  age : String
  deriving DecidableEq, Repr

/-- `service.record`. -/
structure Record where
  summary : Summary
  createdAt : Int
  selector : List (String × String)
  endpoints : List String
  relatedPods : List RelatedPod
  description : String
  deriving DecidableEq, Repr

/-- `service.Detail`; `createdAt` models its RFC3339 rendering by the
instant. -/
structure Detail where
  summary : Summary
  selector : List (String × String)
  endpoints : List String
  relatedPods : List RelatedPod
  createdAt : Int
  description : String
  deriving DecidableEq, Repr

/-- `service.ErrNotFound`. -/
inductive Err where
  | notFound
  deriving DecidableEq, Repr

/-- The store contents: `map[string]record`. -/
abbrev State := List (String × Record)

/-- The key under which `NewStore` files a record:
`s.items[rec.Name] = rec` — the name ALONE, even though services are
namespace-scoped. -/
def storeKey (rec : Record) : String := rec.summary.name

/-- One iteration of the `NewStore` seeding loop. -/
def seedInsert (st : State) (rec : Record) : State :=
  mapInsert (storeKey rec) rec st

/-- The `NewStore` seeding loop over a record list. -/
def newStoreOf (recs : List Record) : State := recs.foldl seedInsert []

/-- `decorateSummary` (the copies of `ExternalIPs`/`Ports` are
content-preserving). -/
def decorateSummary (sum : Summary) (createdAt now : Int) : Summary :=
  { sum with age := formatAge (now - createdAt) }

/-- The detail built inside `Get`. -/
def toDetail (rec : Record) (now : Int) : Detail :=
  { summary := decorateSummary rec.summary rec.createdAt now
    selector := rec.selector
    endpoints := rec.endpoints
    relatedPods := rec.relatedPods
    createdAt := rec.createdAt
    description := rec.description }

/-- `Get(name, now)`: a map lookup keyed by name alone. -/
def get (st : State) (name : String) (now : Int) : Except Err Detail :=
  match mapLookup name st with
  | some rec => .ok (toDetail rec now)
  | none => .error .notFound

end Svc

/-- Two service records that differ only in their namespace. -/
def svcRecA : Svc.Record :=
  { summary := { name := "web", nspace := "alpha", type := "ClusterIP",
                 clusterIP := "10.96.0.1", externalIPs := [], ports := [],
                 status := "Active", age := "" },
    createdAt := 0, selector := [], endpoints := [], relatedPods := [],
    description := "in namespace alpha" }

/-- The same service name in a different namespace. -/
def svcRecB : Svc.Record :=
  { summary := { name := "web", nspace := "beta", type := "ClusterIP",
                 clusterIP := "10.96.0.1", externalIPs := [], ports := [],
                 status := "Active", age := "" },
    createdAt := 0, selector := [], endpoints := [], relatedPods := [],
    description := "in namespace beta" }

/-- C4 counterexample: the service store keys records by name ALONE, so
two records of this namespaced kind that differ only in namespace share
one key; seeding both leaves a single record (the second overwrites the
first), and `Get` — which takes only a name — returns the survivor.
Likewise the deployment store's `Get` matches on name only: on a state
holding `alpha/web` and `beta/web` under their distinct map keys, any
`Get("web")` call resolves to the first match, never distinguishing the
two by namespace. -/
theorem c4_counterexample :
    Svc.storeKey svcRecA = Svc.storeKey svcRecB ∧
    svcRecA.summary.nspace ≠ svcRecB.summary.nspace ∧
    Svc.newStoreOf [svcRecA, svcRecB] = [("web", svcRecB)] ∧
    (Svc.get (Svc.newStoreOf [svcRecA, svcRecB]) "web" 0).map
        (fun d => d.summary.nspace) = .ok "beta" ∧
    (Deploy.get
        [(Deploy.recKey "alpha" "web",
          { summary := { name := "web", nspace := "alpha", readyReplicas := 1,
                         updatedReplicas := 1, desiredReplicas := 1,
                         strategy := "RollingUpdate", images := [], age := "", status := "" },
            createdAt := 0, revision := 1, labels := [], selector := [],
            containers := [], conditions := [], lastUpdate := 0 }),
         (Deploy.recKey "beta" "web",
          { summary := { name := "web", nspace := "beta", readyReplicas := 1,
                         updatedReplicas := 1, desiredReplicas := 1,
                         strategy := "RollingUpdate", images := [], age := "", status := "" },
            createdAt := 0, revision := 1, labels := [], selector := [],
            containers := [], conditions := [], lastUpdate := 0 })]
        "web" 0).map (fun d => d.summary.nspace) = .ok "alpha" := by
  refine ⟨rfl, by decide, by decide, rfl, rfl⟩

theorem Deploy.findName_eq_none {name : String} :
    ∀ {st : Deploy.State}, (∀ q ∈ st, q.2.summary.name ≠ name) →
      Deploy.findName name st = none := by
  intro st
  induction st with
  | nil => intro _; rfl
  | cons p rest ih =>
    intro h
    show Deploy.findName name ((p.1, p.2) :: rest) = none
    rw [Deploy.findName, if_neg (h p (List.mem_cons_self p rest))]
    exact ih (fun q hq => h q (List.mem_cons_of_mem p hq))

/-- C4 (amended): `Get` resolves its argument by name alone.  The
deployment (and pod) stores key records by `(namespace, name)` but
`Get` scans for the first record whose name equals the argument,
ignoring the namespace; the service store keys records by name alone,
so two records differing only in namespace collide on a single key
(the later insert overwrites the earlier, see `c4_counterexample`);
cluster-scoped kinds resolve by name; a `NotFound` condition is
returned when no record bears the name. -/
theorem c4_get_resolution (dst : Deploy.State) (sst : Svc.State) (name : String) (now : Int) :
    ((∀ q ∈ dst, q.2.summary.name ≠ name) →
      Deploy.get dst name now = .error .notFound) ∧
    (∀ (k : String) (rec : Deploy.Record), Deploy.findName name dst = some (k, rec) →
      Deploy.get dst name now = .ok (Deploy.toDetail rec now)) ∧
    (mapLookup name sst = none → Svc.get sst name now = .error .notFound) ∧
    (∀ rec : Svc.Record, mapLookup name sst = some rec →
      Svc.get sst name now = .ok (Svc.toDetail rec now)) := by
  refine ⟨?_, ?_, ?_, ?_⟩
  · intro h
    unfold Deploy.get
    rw [Deploy.findName_eq_none h]
  · intro k rec hf
    unfold Deploy.get
    rw [hf]
  · intro h
    unfold Svc.get
    rw [h]
  · intro rec h
    unfold Svc.get
    rw [h]

/-- Witness for C4 (amended): a name-keyed miss on the seeded
deployment store and a name-keyed hit on the two-record service
store. -/
theorem c4_witness :
    Deploy.get (Deploy.newStore 0) "missing" 0 = .error .notFound ∧
    Svc.get (Svc.newStoreOf [svcRecA, svcRecB]) "web" 0 = .ok (Svc.toDetail svcRecB 0) := by
  constructor
  · exact (c4_get_resolution (Deploy.newStore 0) [] "missing" 0).1 (by decide)
  · exact (c4_get_resolution [] (Svc.newStoreOf [svcRecA, svcRecB]) "web" 0).2.2.2 svcRecB rfl
